import Mathlib

/-!
Verification of `src/fastlayer/native/cpp_hot.cpp` (function `dot_cpp`).

The C++ source is:

  double dot_cpp(py::array_t<double> a, py::array_t<double> b) \x7b
      auto bufA = a.request(), bufB = b.request();
      if (bufA.size != bufB.size) throw std::runtime_error("Array size mismatch");
      double* ptrA = static_cast<double*>(bufA.ptr);
      double* ptrB = static_cast<double*>(bufB.ptr);
      double s = 0.0;
      for (ssize_t i = 0; i < bufA.size; i++) \x7b
          s += ptrA[i] * ptrB[i];
      \x7d
      return s;
  \x7d

Scalar model.  C++ `double` is IEEE-754 binary64.  We model its values with
`F64`: NaN, signed infinities, signed zeros, and nonzero finite values carried
as exact rationals.  The arithmetic operations `f64add` and `f64mul` implement
the IEEE-754 special-value rules exactly (NaN propagation, 0 * inf = NaN,
inf - inf = NaN, signed-zero results, exact cancellation gives +0 under
round-to-nearest-even).  On nonzero finite operands the model computes the
exact rational result: it does not model binary64 rounding or overflow of
finite arithmetic.  Every theorem below either quantifies over operations in a
way that is insensitive to rounding (commutativity of multiplication survives
rounding of the exact product, since the rounding function is applied to a
commutative exact value), or evaluates the model only at operations where
binary64 arithmetic is exact (small integers, multiplications by zero,
additions of zeros), so the conclusions transfer to the C++ `double` program.
-/

/-- Model of an IEEE-754 binary64 value.  `neg = true` marks the negative
sign.  `F64.num q` is intended for nonzero finite values, carried exactly;
`F64.zero b` is the signed zero. -/
inductive F64 where
  | nan : F64
  | inf (neg : Bool) : F64
  | zero (neg : Bool) : F64
  | num (q : ℚ) : F64
deriving DecidableEq, Repr

/-- Finite binary64 values: everything except NaN and the infinities. -/
def F64.isFinite : F64 → Bool
  | .nan => false
  | .inf _ => false
  | .zero _ => true
  | .num _ => true

/-- Sign bit of a value (negative = `true`); NaN's sign is irrelevant. -/
def F64.sgn : F64 → Bool
  | .nan => false
  | .inf b => b
  | .zero b => b
  | .num q => decide (q < 0)

/-- IEEE-754 binary64 multiplication on the model.  NaN propagates;
`0 * inf` is NaN (invalid operation); signs combine by xor; nonzero finite
products are exact (see the module comment for the faithfulness caveat). -/
def f64mul : F64 → F64 → F64
  | .nan, _ => .nan
  | _, .nan => .nan
  | .inf s, .inf t => .inf (xor s t)
  | .inf _, .zero _ => .nan
  | .zero _, .inf _ => .nan
  | .inf s, .num q => .inf (xor s (decide (q < 0)))
  | .num q, .inf s => .inf (xor (decide (q < 0)) s)
  | .zero s, .zero t => .zero (xor s t)
  | .zero s, .num q => .zero (xor s (decide (q < 0)))
  | .num q, .zero s => .zero (xor (decide (q < 0)) s)
  | .num p, .num q => if p * q = 0 then .zero (xor (decide (p < 0)) (decide (q < 0))) else .num (p * q)

/-- IEEE-754 binary64 addition on the model, in the default
round-to-nearest-even mode.  NaN propagates; opposite infinities give NaN;
`(+0) + (-0) = +0` and exact cancellation of finite values gives `+0`;
nonzero finite sums are exact (see the module comment). -/
def f64add : F64 → F64 → F64
  | .nan, _ => .nan
  | _, .nan => .nan
  | .inf s, .inf t => if s = t then .inf s else .nan
  | .inf s, .zero _ => .inf s
  | .inf s, .num _ => .inf s
  | .zero _, .inf t => .inf t
  | .num _, .inf t => .inf t
  | .zero s, .zero t => if s = t then .zero s else .zero false
  | .zero _, .num q => .num q
  | .num q, .zero _ => .num q
  | .num p, .num q => if p + q = 0 then .zero false else .num (p + q)

/-- IEEE-754 equality comparison (`==` on doubles): NaN compares unequal to
everything (itself included), and `-0.0 == +0.0`. -/
def f64beq : F64 → F64 → Bool
  | .nan, _ => false
  | _, .nan => false
  | .inf s, .inf t => s = t
  | .zero _, .zero _ => true
  | .num p, .num q => p = q
  | _, _ => false

/-- The literal `0.0` of the C++ source (positive zero). -/
def F64.pz : F64 := F64.zero false

/-- The single error condition of `dot_cpp`: the
`throw std::runtime_error("Array size mismatch")` on line 8, called
`LengthMismatch` by the spec. -/
inductive DotError where
  | lengthMismatch : DotError
deriving DecidableEq, Repr

/-- The loop of `dot_cpp` (lines 11-14): `s = 0.0; for (i = 0; i < bufA.size;
i++) s += ptrA[i] * ptrB[i];`.  `fuel` is the number of remaining iterations
(`bufA.size - i`), `i` the loop index, `s` the accumulator.  The pointer reads
`ptrA[i]` and `ptrB[i]` are embedded as `Option`-returning list indexing:
`none` marks an out-of-range access (undefined behaviour in the C++). -/
def dotGo (a b : List F64) : ℕ → ℕ → F64 → Option F64
  | 0, _, s => some s
  | fuel + 1, i, s =>
    match a.get? i, b.get? i with
    | some x, some y => dotGo a b fuel (i + 1) (f64add s (f64mul x y))
    | _, _ => none

/-- `dot_cpp` (lines 6-16): check the sizes, then run the accumulation loop
starting from `0.0`.  The outer `Option` is `none` only if the loop performs
an out-of-range access. -/
def dot_cpp (a b : List F64) : Option (Except DotError F64) :=
  if a.length ≠ b.length then some (Except.error DotError.lengthMismatch)
  else (dotGo a b a.length 0 F64.pz).map Except.ok

/-- Modelled from the spec's result clause: "the sum Σ aᵢ·bᵢ for i in
[0, length), computed via a single accumulating pass, using an accumulator
initialized to 0.0 and ordinary floating-point addition" — a left-to-right
fold of `s + aᵢ * bᵢ` over the paired elements, starting at `+0.0`. -/
def sumProducts (a b : List F64) : F64 :=
  (a.zip b).foldl (fun s p => f64add s (f64mul p.1 p.2)) F64.pz

/-- The loop, started at index `i` with `fuel = a.length - i` iterations left
and accumulator `s`, folds over the remaining pairs. -/
theorem dotGo_eq_foldl (a b : List F64) :
    ∀ (fuel i : ℕ) (s : F64), i + fuel = a.length → a.length ≤ b.length →
      dotGo a b fuel i s =
        some (((a.drop i).zip (b.drop i)).foldl
          (fun s p => f64add s (f64mul p.1 p.2)) s) := by
  intro fuel
  induction fuel with
  | zero =>
    intro i s hi _
    simp only [Nat.add_zero] at hi
    simp [dotGo, hi, List.drop_length, List.drop_eq_nil_of_le, le_refl]
  | succ n ih =>
    intro i s hi hle
    have hia : i < a.length := by omega
    have hib : i < b.length := by omega
    have ha : a.get? i = some (a.get ⟨i, hia⟩) := List.get?_eq_get hia
    have hb : b.get? i = some (b.get ⟨i, hib⟩) := List.get?_eq_get hib
    have hdropa : a.drop i = a.get ⟨i, hia⟩ :: a.drop (i + 1) :=
      List.drop_eq_get_cons hia
    have hdropb : b.drop i = b.get ⟨i, hib⟩ :: b.drop (i + 1) :=
      List.drop_eq_get_cons hib
    rw [dotGo, ha, hb]
    show dotGo a b n (i + 1) (f64add s (f64mul (a.get ⟨i, hia⟩) (b.get ⟨i, hib⟩))) = _
    rw [ih (i + 1) (f64add s (f64mul (a.get ⟨i, hia⟩) (b.get ⟨i, hib⟩))) (by omega) hle]
    rw [hdropa, hdropb]
    rfl

/-- For equal-length inputs the loop computes `sumProducts` and never goes
out of range. -/
theorem dotGo_spec (a b : List F64) (h : a.length = b.length) :
    dotGo a b a.length 0 F64.pz = some (sumProducts a b) := by
  have := dotGo_eq_foldl a b a.length 0 F64.pz (by omega) (by omega)
  simpa [sumProducts] using this

/-- Full characterization of `dot_cpp`: a `LengthMismatch` error exactly when
the lengths differ, and the left-to-right accumulated sum of products
otherwise; the out-of-range branch is never taken. -/
theorem dot_cpp_eq (a b : List F64) :
    dot_cpp a b =
      if a.length ≠ b.length then some (Except.error DotError.lengthMismatch)
      else some (Except.ok (sumProducts a b)) := by
  by_cases h : a.length = b.length
  · unfold dot_cpp
    rw [if_neg (not_not_intro h), if_neg (not_not_intro h), dotGo_spec a b h]
    rfl
  · simp [dot_cpp, h]

/-- Binary64 multiplication is commutative on values (IEEE-754 mandates this;
in the model the exact nonzero-finite product commutes, and the rounding the
model omits would be applied to that same commutative exact value). -/
theorem f64mul_comm (x y : F64) : f64mul x y = f64mul y x := by
  cases x <;> cases y <;> simp [f64mul, Bool.xor_comm, mul_comm]

/-- Swapping the two lists swaps each product inside the fold. -/
theorem foldl_zip_swap : ∀ (a b : List F64) (s : F64),
    (a.zip b).foldl (fun s p => f64add s (f64mul p.1 p.2)) s
      = (b.zip a).foldl (fun s p => f64add s (f64mul p.1 p.2)) s := by
  intro a
  induction a with
  | nil => intro b s; simp
  | cons x a ih =>
    intro b s
    cases b with
    | nil => simp
    | cons y b =>
      simp only [List.zip_cons_cons, List.foldl_cons]
      rw [f64mul_comm]
      exact ih b _

/-- The accumulated sum of products is symmetric in the two inputs. -/
theorem sumProducts_comm (a b : List F64) : sumProducts a b = sumProducts b a :=
  foldl_zip_swap a b F64.pz

/-- One loop step against a `+0.0` element: for finite `x`,
`0.0 + x * 0.0 = 0.0` exactly (the product is a signed zero, and adding a
signed zero to `+0.0` gives `+0.0` under round-to-nearest-even). -/
theorem add_pz_mul_pz (x : F64) (h : x.isFinite = true) :
    f64add F64.pz (f64mul x F64.pz) = F64.pz := by
  cases x with
  | nan => simp [F64.isFinite] at h
  | inf s => simp [F64.isFinite] at h
  | zero s => cases s <;> rfl
  | num q =>
    by_cases hq : q < 0
    · simp [f64mul, f64add, F64.pz, hq]
    · simp [f64mul, f64add, F64.pz, hq]

/-- Folding products against an all-`+0.0` list keeps the accumulator at
`+0.0` when every element of `a` is finite. -/
theorem sumProducts_replicate_pz (a : List F64) (h : ∀ x ∈ a, x.isFinite = true) :
    sumProducts a (List.replicate a.length F64.pz) = F64.pz := by
  unfold sumProducts
  induction a with
  | nil => rfl
  | cons x a ih =>
    simp only [List.length_cons, List.replicate_succ, List.zip_cons_cons, List.foldl_cons]
    rw [add_pz_mul_pz x (h x (List.mem_cons_self x a))]
    exact ih (fun y hy => h y (List.mem_cons_of_mem x hy))

/-- The loop of `dot_cpp` with the two buffers threaded explicitly as state,
to make the memory effects of the C++ body visible: each iteration reads
`ptrA[i]` and `ptrB[i]` from the state and performs no store, so the state
component it passes on is the one it received. -/
def dotGoSt (st : List F64 × List F64) : ℕ → ℕ → F64 → Option ((List F64 × List F64) × F64)
  | 0, _, s => some (st, s)
  | fuel + 1, i, s =>
    match st.1.get? i, st.2.get? i with
    | some x, some y => dotGoSt st fuel (i + 1) (f64add s (f64mul x y))
    | _, _ => none

/-- `dot_cpp` with the buffers threaded as state, returning the buffers as
they stand after the call next to the call's outcome. -/
def dot_cpp_st (a b : List F64) :
    Option ((List F64 × List F64) × Except DotError F64) :=
  if a.length ≠ b.length then some ((a, b), Except.error DotError.lengthMismatch)
  else (dotGoSt (a, b) a.length 0 F64.pz).map (fun r => (r.1, Except.ok r.2))

/-- The state-threaded loop returns its buffers unchanged and computes the
same value as the pure loop. -/
theorem dotGoSt_frame (st : List F64 × List F64) :
    ∀ (fuel i : ℕ) (s : F64),
      dotGoSt st fuel i s = (dotGo st.1 st.2 fuel i s).map (fun v => (st, v)) := by
  intro fuel
  induction fuel with
  | zero => intro i s; rfl
  | succ n ih =>
    intro i s
    rw [dotGoSt, dotGo]
    cases hx : st.1.get? i with
    | none => rfl
    | some x =>
      cases hy : st.2.get? i with
      | none => rfl
      | some y => exact ih (i + 1) (f64add s (f64mul x y))

/-- C1: for every pair of equal-length float64 sequences, `dot_cpp` returns
the sum of elementwise products computed as a single left-to-right
accumulating pass whose accumulator starts at `0.0`, using the ordinary
floating-point addition of each product to the accumulator (no reordering, no
compensated summation): the code's index loop refines the spec's
left-to-right fold `sumProducts`. -/
theorem claim_C1_left_to_right_accumulation (a b : List F64)
    (h : a.length = b.length) :
    dot_cpp a b = some (Except.ok (sumProducts a b)) := by
  rw [dot_cpp_eq, if_neg (not_not_intro h)]

/-- Witness for C1 at a concrete equal-length input. -/
theorem claim_C1_witness :
    ([F64.pz, F64.inf false].length = [F64.inf true, F64.pz].length)
      ∧ dot_cpp [F64.pz, F64.inf false] [F64.inf true, F64.pz]
          = some (Except.ok (sumProducts [F64.pz, F64.inf false] [F64.inf true, F64.pz])) :=
  ⟨rfl, claim_C1_left_to_right_accumulation _ _ rfl⟩

/-- C2: `dot_cpp` fails with the `LengthMismatch` error if and only if the
two input lengths differ, and for equal-length inputs it produces a result
with no error; `DotError` has no other constructor, so there are no other
error conditions. -/
theorem claim_C2_error_iff_length_mismatch (a b : List F64) :
    (dot_cpp a b = some (Except.error DotError.lengthMismatch) ↔ a.length ≠ b.length)
      ∧ (a.length = b.length → ∃ s, dot_cpp a b = some (Except.ok s)) := by
  constructor
  · rw [dot_cpp_eq]
    by_cases h : a.length = b.length <;> simp [h]
  · intro h
    exact ⟨sumProducts a b, by rw [dot_cpp_eq, if_neg (not_not_intro h)]⟩

/-- Witness for C2: length 3 against length 4 raises the error, and an
equal-length call returns a value. -/
theorem claim_C2_witness :
    dot_cpp [F64.pz, F64.pz, F64.pz] [F64.pz, F64.pz, F64.pz, F64.pz]
        = some (Except.error DotError.lengthMismatch)
      ∧ ∃ s, dot_cpp [F64.pz] [F64.pz] = some (Except.ok s) :=
  ⟨(claim_C2_error_iff_length_mismatch _ _).1.mpr (by decide),
   (claim_C2_error_iff_length_mismatch _ _).2 rfl⟩

/-- C3: on zero-length inputs `dot_cpp` returns exactly `0.0` (the loop never
runs and the initial accumulator, positive zero, is returned). -/
theorem claim_C3_empty_inputs_yield_zero :
    dot_cpp ([] : List F64) [] = some (Except.ok F64.pz) := rfl

/-- C4: for equal-length inputs `dot_cpp` is commutative in its two
arguments, because binary64 multiplication is commutative on values and the
additions are performed in the same order. -/
theorem claim_C4_commutative (a b : List F64) (h : a.length = b.length) :
    dot_cpp a b = dot_cpp b a := by
  rw [dot_cpp_eq, dot_cpp_eq, if_neg (not_not_intro h),
    if_neg (not_not_intro h.symm), sumProducts_comm]

/-- Witness for C4 at a concrete equal-length input. -/
theorem claim_C4_witness :
    dot_cpp [F64.pz, F64.inf false] [F64.inf true, F64.pz]
      = dot_cpp [F64.inf true, F64.pz] [F64.pz, F64.inf false] :=
  claim_C4_commutative _ _ rfl

/-- C5 fails as stated: the claim quantifies over every float64 sequence
`a`, but for `a = [+inf]` the product `inf * 0.0` is NaN (IEEE-754 invalid
operation), so `dot_cpp` returns NaN, which is not `0.0` (neither as a value
nor under the IEEE `==` comparison). -/
theorem claim_C5_zeros_counterexample :
    dot_cpp [F64.inf false] [F64.pz] = some (Except.ok F64.nan)
      ∧ F64.nan ≠ F64.pz
      ∧ f64beq F64.nan F64.pz = false :=
  ⟨rfl, by decide, rfl⟩

/-- C5 amended: for every sequence `a` all of whose elements are finite
(no NaN, no infinities), `dot_cpp` of `a` with the same-length all-`+0.0`
sequence returns exactly `+0.0`: each product is a signed zero and adding a
signed zero to the `+0.0` accumulator keeps it `+0.0` under
round-to-nearest-even. -/
theorem claim_C5_amended_zeros_give_zero (a : List F64)
    (h : ∀ x ∈ a, x.isFinite = true) :
    dot_cpp a (List.replicate a.length F64.pz) = some (Except.ok F64.pz) := by
  have hlen : a.length = (List.replicate a.length F64.pz).length := by simp
  rw [dot_cpp_eq, if_neg (not_not_intro hlen), sumProducts_replicate_pz a h]

/-- Witness for the amended C5 at a concrete all-finite input. -/
theorem claim_C5_witness :
    (∀ x ∈ [F64.num 1, F64.zero true], F64.isFinite x = true)
      ∧ dot_cpp [F64.num 1, F64.zero true]
            (List.replicate ([F64.num 1, F64.zero true].length) F64.pz)
          = some (Except.ok F64.pz) :=
  ⟨by decide, claim_C5_amended_zeros_give_zero _ (by decide)⟩

/-- C6: on `a = [1.0, 2.0, 3.0]` and `b = [4.0, 5.0, 6.0]` the result is
exactly `32.0` (every intermediate value is a small integer, so binary64
arithmetic is exact here and the model computes the same values). -/
theorem claim_C6_concrete_case :
    dot_cpp [F64.num 1, F64.num 2, F64.num 3] [F64.num 4, F64.num 5, F64.num 6]
      = some (Except.ok (F64.num 32)) := by
  rw [dot_cpp_eq]
  norm_num [sumProducts, f64mul, f64add, F64.pz]

/-- C8: `dot_cpp` has no side effects.  With the two buffers threaded as
explicit state through the call, the outcome is exactly the pure function's
outcome paired with the untouched buffers `(a, b)`: the body only reads, and
both inputs are unchanged after any call, successful or failing. -/
theorem claim_C8_no_side_effects (a b : List F64) :
    dot_cpp_st a b = (dot_cpp a b).map (fun r => ((a, b), r)) := by
  unfold dot_cpp_st dot_cpp
  by_cases h : a.length ≠ b.length
  · rw [if_pos h, if_pos h]
    rfl
  · rw [if_neg h, if_neg h, dotGoSt_frame (a, b) a.length 0 F64.pz]
    show ((dotGo a b a.length 0 F64.pz).map (fun v => ((a, b), v))).map
          (fun r => (r.1, Except.ok r.2))
        = ((dotGo a b a.length 0 F64.pz).map Except.ok).map (fun r => ((a, b), r))
    cases dotGo a b a.length 0 F64.pz <;> rfl

/-- C9: under the equal-length precondition, every read `ptrA[i]`, `ptrB[i]`
performed by the loop is in bounds: the `Option`-returning indexing embedding
never takes its out-of-range (`none`) branch. -/
theorem claim_C9_accesses_in_bounds (a b : List F64) (h : a.length = b.length) :
    (dotGo a b a.length 0 F64.pz).isSome = true := by
  rw [dotGo_spec a b h]
  rfl

/-- Witness for C9 at a concrete equal-length input. -/
theorem claim_C9_witness :
    ([F64.pz].length = [F64.inf true].length)
      ∧ (dotGo [F64.pz] [F64.inf true] ([F64.pz].length) 0 F64.pz).isSome = true :=
  ⟨rfl, claim_C9_accesses_in_bounds _ _ rfl⟩

/-- C10: `dot_cpp` is deterministic: two calls on elementwise-identical
inputs (same positions defined, same values at every position) produce the
same outcome, result or error. -/
theorem claim_C10_deterministic (a a' b b' : List F64)
    (ha : ∀ i, a.get? i = a'.get? i) (hb : ∀ i, b.get? i = b'.get? i) :
    dot_cpp a b = dot_cpp a' b' := by
  rw [List.ext_get? ha, List.ext_get? hb]

/-- Witness for C10 at a concrete input pair. -/
theorem claim_C10_witness :
    dot_cpp [F64.pz] [F64.inf false] = dot_cpp [F64.pz] [F64.inf false] :=
  claim_C10_deterministic _ _ _ _ (fun _ => rfl) (fun _ => rfl)
